import Mathlib

/-!
Shallow embedding of `src/producers/json_producer_ruiz.py`.

The program replays a JSON record collection (`data/buzz.json`) to a Kafka
topic.  We embed:

* the JSON value model (what `json.load` can produce),
* file reads as a map from paths to read outcomes (missing file,
  undecodable content, some other read error, or a parsed JSON value),
* the record generator `generate_messages` (lines 30-47) as a fuel-indexed
  step function `genNext` (one pull of the generator) and a trace function
  `genRun` (the first `n` pulls),
* configuration resolution `get_kafka_topic` / `get_message_interval`
  (lines 16-24),
* the value serializer lambda of line 59 (`json.dumps` + UTF-8 encoding),
* the driver `main` (lines 49-97) as `mainLoop` / `mainModel`, producing
  the process exit code, the number of `producer.send` calls, the sent
  payloads, the throughput snapshots and the number of `producer.close`
  calls.

Wall-clock times are modelled over `Rat` (the code uses floating point
`time.time()`; none of the verified properties depend on rounding).
-/

/-- JSON values, the possible results of Python `json.load`. -/
inductive Json where
  | null : Json
  | bool (b : Bool) : Json
  | num (n : Int) : Json
  | str (s : String) : Json
  | arr (xs : List Json) : Json
  | obj (kvs : List (String × Json)) : Json


/-- `true` exactly when the JSON root is a Python `list` (the
`isinstance(json_data, list)` test of line 35). -/
def Json.isArr : Json → Bool
  | .arr _ => true
  | _ => false

/-- Outcome of one attempt to open and `json.load` a file:
`missing` models `FileNotFoundError` from `open`, `decodeErr e` models
`json.JSONDecodeError` with message `e`, `otherErr e` models any other
exception raised while opening/reading/decoding, `parsed j` a successful
decode to `j`. -/
inductive ReadOutcome where
  | missing : ReadOutcome
  | decodeErr (e : String) : ReadOutcome
  | otherErr (e : String) : ReadOutcome
  | parsed (j : Json) : ReadOutcome


/-- The module-level constant of lines 26-28:
`DATA_FILE = PROJECT_ROOT / "data" / "buzz.json"` (path rendered
project-relative). -/
def DATA_FILE : String := "data/buzz.json"

/-- Python `str(type(x))` for a decoded JSON root, as interpolated into the
`ValueError` message of line 36.  (CPython renders it `<class 'dict'>` etc.;
the inner quotes are omitted here, no verified property depends on this
text.) -/
def pyTypeName : Json → String
  | .null => "<class NoneType>"
  | .bool _ => "<class bool>"
  | .num _ => "<class int>"
  | .str _ => "<class str>"
  | .arr _ => "<class list>"
  | .obj _ => "<class dict>"

/-- Result of pulling the generator once: it either yields a record
(`rest` is the not-yet-yielded tail of the current cycle's decoded list,
`reads` the number of file reads this pull performed), or terminates the
process via `sys.exit code` after logging `msg`, or spins forever without
yielding (only possible when the file decodes to the empty list; `reads`
counts the re-reads performed before the fuel ran out). -/
inductive GenStep where
  | yield (j : Json) (rest : List Json) (reads : Nat) : GenStep
  | exit (code : Nat) (msg : String) (reads : Nat) : GenStep
  | spin (reads : Nat) : GenStep


/-- Add file reads performed before re-entering the `while True` loop. -/
def GenStep.bumpReads (r : Nat) : GenStep → GenStep
  | .yield j rest k => .yield j rest (k + r)
  | .exit c m k => .exit c m (k + r)
  | .spin k => .spin (k + r)

/-- Exit code carried by a step, if the step terminates the process. -/
def GenStep.code : GenStep → Option Nat
  | .exit c _ _ => some c
  | _ => none

/-- The yielded record and remaining buffer, if the step yields. -/
def GenStep.yielded : GenStep → Option (Json × List Json)
  | .yield j rest _ => some (j, rest)
  | _ => none

/-- One pull of `generate_messages(file_path)` (lines 30-47).
`fs` maps paths to read outcomes; note the body opens the module-level
`DATA_FILE` (line 33), not its `file_path` argument, while the error logs
of lines 40 and 43 interpolate `file_path`.  `buffer` is the not-yet-yielded
tail of the current cycle (`[]` at the start and at each cycle boundary);
`fuel` bounds the number of `while True` iterations (file reads) this pull
may perform.  The `ValueError` of line 36 (root not a list) is not a
`json.JSONDecodeError`, so it is caught by the `except Exception` clause of
line 45 and exits with code 3. -/
def genNext (fs : String → ReadOutcome) (file_path : String) :
    List Json → Nat → GenStep
  | j :: rest, _ => .yield j rest 0
  | [], 0 => .spin 0
  | [], fuel + 1 =>
    match fs DATA_FILE with
    | .missing =>
        .exit 1 ("File not found: " ++ file_path ++ ". Exiting.") 1
    | .decodeErr e =>
        .exit 2 ("Invalid JSON format in file: " ++ file_path ++
          ". Error: " ++ e) 1
    | .otherErr e =>
        .exit 3 ("Unexpected error in message generation: " ++ e) 1
    | .parsed j =>
      match j with
      | .arr [] => (genNext fs file_path [] fuel).bumpReads 1
      | .arr (x :: rest) => .yield x rest 1
      | _ =>
          .exit 3 ("Unexpected error in message generation: " ++
            "Expected a list of JSON objects, got " ++ pyTypeName j ++ ".") 1

/-- Trace of the first `n` pulls of the generator: the records yielded in
order, together with either the final buffer, a process exit, or a spin,
and the total number of file reads performed. -/
inductive GenTrace where
  | ok (ys : List Json) (rest : List Json) (reads : Nat) : GenTrace
  | exited (code : Nat) (msg : String) (ys : List Json) (reads : Nat) : GenTrace
  | spun (ys : List Json) (reads : Nat) : GenTrace


/-- Run the generator for `n` pulls, each pull with read budget `fuel`. -/
def genRun (fs : String → ReadOutcome) (file_path : String) :
    List Json → Nat → Nat → GenTrace
  | buffer, 0, _ => .ok [] buffer 0
  | buffer, n + 1, fuel =>
    match genNext fs file_path buffer fuel with
    | .yield j rest r =>
      match genRun fs file_path rest n fuel with
      | .ok ys rest' r' => .ok (j :: ys) rest' (r + r')
      | .exited c m ys r' => .exited c m (j :: ys) (r + r')
      | .spun ys r' => .spun (j :: ys) (r + r')
    | .exit c m r => .exited c m [] r
    | .spin r => .spun [] r

/-- `get_kafka_topic` (lines 16-19): `os.getenv("BUZZ_TOPIC",
"unknown_topic")`.  `env` is the value of the `BUZZ_TOPIC` environment
variable, `none` when unset. -/
def get_kafka_topic (env : Option String) : String :=
  env.getD "unknown_topic"

/-- Accumulate the value of a run of decimal digit characters; `none` as
soon as a non-digit appears. -/
def digitsVal (cs : List Char) : Option Nat :=
  cs.foldl
    (fun acc c =>
      acc.bind (fun n => if c.isDigit then some (10 * n + (c.toNat - 48)) else none))
    (some 0)

/-- ASCII whitespace stripped by Python `int()`. -/
def isPySpace (c : Char) : Bool :=
  c = ' ' || c = '\t' || c = '\n' || c = '\r' || c.toNat = 11 || c.toNat = 12

/-- Python `int(s)` on a string: strip surrounding whitespace, optional
sign, then a nonempty digit run; `none` models the `ValueError` raised
otherwise.  (Underscore digit separators, accepted by CPython, are not
modelled; no verified property uses them.) -/
def pyInt (s : String) : Option Int :=
  match ((s.toList.dropWhile isPySpace).reverse.dropWhile isPySpace).reverse with
  | [] => none
  | c :: rest =>
    if c = '-' then
      (match rest with
       | [] => none
       | _ => (digitsVal rest).map (fun n => -(n : Int)))
    else if c = '+' then
      (match rest with
       | [] => none
       | _ => (digitsVal rest).map (fun n => (n : Int)))
    else (digitsVal (c :: rest)).map (fun n => (n : Int))

/-- `get_message_interval` (lines 21-24):
`int(os.getenv("BUZZ_INTERVAL_SECONDS", 1))`.  When the variable is unset
`os.getenv` returns the default `1` and `int(1) = 1`; when set, the string
is parsed by `int`, whose `ValueError` (modelled by `none`) propagates out
of the function uncaught. -/
def get_message_interval (env : Option String) : Option Int :=
  match env with
  | none => some 1
  | some s => pyInt s

/-- Lowercase hexadecimal digit, as used by `json.dumps` unicode escapes. -/
def hexDigit (n : Nat) : Char :=
  if n < 10 then Char.ofNat (48 + n) else Char.ofNat (97 + (n - 10))

/-- A `\uXXXX` escape for a code unit below 0x10000. -/
def uEscape (n : Nat) : String :=
  "\\u" ++ String.mk
    [hexDigit (n / 4096 % 16), hexDigit (n / 256 % 16),
     hexDigit (n / 16 % 16), hexDigit (n % 16)]

/-- Escape one character of a JSON string the way `json.dumps` (default
`ensure_ascii=True`) does: the two-character escapes of its `ESCAPE_DCT`
for `"` `\` and the common control characters, `\uXXXX` (with surrogate
pairs above 0xFFFF) for every other character outside printable ASCII
0x20-0x7E, and the character itself otherwise. -/
def escapeChar (c : Char) : String :=
  let n := c.toNat
  if c = '"' then "\\\""
  else if c = '\\' then "\\\\"
  else if n = 8 then "\\b"
  else if n = 9 then "\\t"
  else if n = 10 then "\\n"
  else if n = 12 then "\\f"
  else if n = 13 then "\\r"
  else if n < 32 ∨ 126 < n then
    if n < 65536 then uEscape n
    else uEscape (55296 + (n - 65536) / 1024) ++ uEscape (56320 + (n - 65536) % 1024)
  else String.singleton c

/-- `json.dumps` rendering of a string literal. -/
def dumpString (s : String) : String :=
  "\"" ++ String.join (s.toList.map escapeChar) ++ "\""

mutual

/-- `json.dumps(x)` with CPython defaults (item separator `", "`,
key separator `": "`, `ensure_ascii=True`): the structured-text encoding
of a record. -/
def jsonDumps : Json → String
  | .null => "null"
  | .bool true => "true"
  | .bool false => "false"
  | .num n => toString n
  | .str s => dumpString s
  | .arr xs => "[" ++ jsonDumpsList xs ++ "]"
  | .obj kvs => "\x7b" ++ jsonDumpsObj kvs ++ "\x7d"

/-- Array elements joined by `", "`. -/
def jsonDumpsList : List Json → String
  | [] => ""
  | [x] => jsonDumps x
  | x :: y :: rest => jsonDumps x ++ ", " ++ jsonDumpsList (y :: rest)

/-- Object members `"key": value` joined by `", "`. -/
def jsonDumpsObj : List (String × Json) → String
  | [] => ""
  | [kv] => dumpString kv.1 ++ ": " ++ jsonDumps kv.2
  | kv :: kv' :: rest =>
      dumpString kv.1 ++ ": " ++ jsonDumps kv.2 ++ ", " ++ jsonDumpsObj (kv' :: rest)

end

/-- UTF-8 encoding of one Unicode scalar value, each byte as a `Nat`. -/
def utf8Char (c : Char) : List Nat :=
  let n := c.toNat
  if n < 128 then [n]
  else if n < 2048 then [192 + n / 64, 128 + n % 64]
  else if n < 65536 then [224 + n / 4096, 128 + n / 64 % 64, 128 + n % 64]
  else [240 + n / 262144, 128 + n / 4096 % 64, 128 + n / 64 % 64, 128 + n % 64]

/-- Python `s.encode("utf-8")`: the UTF-8 byte sequence of a string. -/
def utf8Encode (s : String) : List Nat :=
  (s.toList.map utf8Char).flatten

/-- The `value_serializer` lambda passed to `create_kafka_producer` on
line 59: `lambda x: json.dumps(x).encode("utf-8")`. -/
def value_serializer (x : Json) : List Nat :=
  utf8Encode (jsonDumps x)

/-- Modelled from the spec: the broker client factory's serializer
contract — "takes one Record, returns UTF-8 bytes of its structured-text
encoding" (structured text being JSON). -/
def specRecordBytes (x : Json) : List Nat :=
  utf8Encode (jsonDumps x)

/-- What happens at iteration `i` of the publish loop: `ok` — the
`producer.send` call succeeds and the iteration completes; `raiseExc` —
`producer.send` raises an `Exception`; `interrupt` — a `KeyboardInterrupt`
arrives (modelled as observed before the send of that iteration). -/
inductive LoopEvent where
  | ok : LoopEvent
  | raiseExc : LoopEvent
  | interrupt : LoopEvent

/-- Run statistics owned by the driver: number of `producer.send` calls
made, successfully sent payloads in order, `message_count`, the throughput
snapshots as `(count, elapsed, throughput)` triples, and the number of
file reads the generator performed. -/
structure RunStats where
  sendCalls : Nat
  sent : List Json
  count : Nat
  snaps : List (Nat × Rat × Rat)
  reads : Nat

/-- The statistics at loop entry (line 71: `message_count = 0`). -/
def stats0 : RunStats :=
  ⟨0, [], 0, [], 0⟩

/-- Add generator file reads to the statistics. -/
def RunStats.addReads (st : RunStats) (r : Nat) : RunStats :=
  { st with reads := st.reads + r }

/-- Outcome of running `main`: either the process exited (with the exit
code, final statistics and the number of `producer.close` calls made), or
the loop is still running after the given iteration budget (no close has
happened yet). -/
inductive MainOutcome where
  | exited (code : Nat) (st : RunStats) (closes : Nat) : MainOutcome
  | running (st : RunStats) : MainOutcome

/-- Exit code, if the process exited. -/
def MainOutcome.exitCode : MainOutcome → Option Nat
  | .exited c _ _ => some c
  | .running _ => none

/-- Number of `producer.close` calls, if the process exited. -/
def MainOutcome.closes : MainOutcome → Option Nat
  | .exited _ _ k => some k
  | .running _ => none

/-- Final (or current) run statistics. -/
def MainOutcome.stats : MainOutcome → RunStats
  | .exited _ st _ => st
  | .running st => st

/-- The `(count, elapsed, throughput)` snapshot logged on line 86:
`elapsed = msg_end_time - start_time` and `throughput = count / elapsed`.
`clock i` is the `msg_end_time` of message `i` (and `clock 0` the
`start_time` of line 72). -/
def mkSnap (clock : Nat → Rat) (c : Nat) : Nat × Rat × Rat :=
  (c, clock c - clock 0, (c : Rat) / (clock c - clock 0))

/-- The `for message_dict in generate_messages(DATA_FILE)` loop of lines
73-97, inside `try ... except KeyboardInterrupt ... except Exception ...
finally: producer.close()`.  One iteration: pull the generator (a
`SystemExit` raised by the generator's `sys.exit` is caught by neither
`except` clause, so it runs the `finally` close and terminates the process
with the generator's code); then either a `KeyboardInterrupt` or an
`Exception` from the send step is caught, the loop stops, `finally` closes
the producer and `main` returns (process exit code 0); or the send
succeeds, `message_count` is incremented, a throughput snapshot is taken
when `message_count % 10 == 0`, and after `time.sleep(interval_secs)` the
loop continues.  `fuel` bounds the number of iterations modelled;
`genFuel` is the per-pull read budget of the generator. -/
def mainLoop (fs : String → ReadOutcome) (p : String) (events : Nat → LoopEvent)
    (clock : Nat → Rat) : List Json → RunStats → Nat → Nat → MainOutcome
  | _, st, _, 0 => .running st
  | buffer, st, genFuel, fuel + 1 =>
    match genNext fs p buffer genFuel with
    | .spin r => .running (st.addReads r)
    | .exit c _ r => .exited c (st.addReads r) 1
    | .yield j rest r =>
      let st1 := st.addReads r
      match events st1.count with
      | .interrupt => .exited 0 st1 1
      | .raiseExc => .exited 0 { st1 with sendCalls := st1.sendCalls + 1 } 1
      | .ok =>
        let c := st1.count + 1
        mainLoop fs p events clock rest
          { sendCalls := st1.sendCalls + 1
            sent := st1.sent ++ [j]
            count := c
            snaps := if c % 10 = 0 then st1.snaps ++ [mkSnap clock c] else st1.snaps
            reads := st1.reads }
          genFuel fuel

/-- `main` (lines 49-97), from the `DATA_FILE.exists()` check onward.
`verify_services` (line 51) and configuration resolution (lines 52-53,
modelled separately by `get_kafka_topic` / `get_message_interval`) are
assumed to have succeeded.  `dataFileExists` is the line 55 existence
check; `fs` gives the outcome of the generator's later reads of
`DATA_FILE` (the file may change or disappear in between); `producerOk`
is the truthiness of the `create_kafka_producer` result (line 60);
`topicOk` is whether `create_kafka_topic` returned without raising
(line 65).  Exits before the `try` of line 73 never call
`producer.close`. -/
def mainModel (dataFileExists : Bool) (fs : String → ReadOutcome)
    (producerOk topicOk : Bool) (events : Nat → LoopEvent)
    (clock : Nat → Rat) (genFuel fuel : Nat) : MainOutcome :=
  if dataFileExists = false then .exited 1 stats0 0
  else if producerOk = false then .exited 3 stats0 0
  else if topicOk = false then .exited 1 stats0 0
  else mainLoop fs DATA_FILE events clock [] stats0 genFuel fuel

/-- The throughput snapshots appended by iterations that take the
`message_count` from `m` to `m + f`: one `mkSnap` per count in
`(m, m + f]` divisible by 10. -/
def snapList (clock : Nat → Rat) (m f : Nat) : List (Nat × Rat × Rat) :=
  (List.range f).filterMap
    (fun i => if (m + i + 1) % 10 = 0 then some (mkSnap clock (m + i + 1)) else none)

/-- Erase the log message of a step, keeping the yielded record, exit code
and read count (the message is the only component built from
`file_path`). -/
def GenStep.strip : GenStep → GenStep
  | .exit c _ r => .exit c "" r
  | s => s

/-! ## Basic unfolding lemmas for the generator -/

theorem genNext_cons (fs : String → ReadOutcome) (p : String) (j : Json)
    (rest : List Json) (fuel : Nat) :
    genNext fs p (j :: rest) fuel = .yield j rest 0 := by
  cases fuel <;> rfl

theorem genNext_nil_parsed_cons (fs : String → ReadOutcome) (p : String)
    (x : Json) (tl : List Json) (f : Nat)
    (hfs : fs DATA_FILE = .parsed (.arr (x :: tl))) :
    genNext fs p [] (f + 1) = .yield x tl 1 := by
  simp [genNext, hfs]

/-- With a well-formed nonempty collection on disk and at least one unit of
read budget, every pull of the generator yields. -/
theorem genNext_always_yields (fs : String → ReadOutcome) (p : String)
    (x : Json) (tl : List Json)
    (hfs : fs DATA_FILE = .parsed (.arr (x :: tl))) :
    ∀ (buffer : List Json) (f : Nat), ∃ j rest r,
      genNext fs p buffer (f + 1) = .yield j rest r := by
  intro buffer f
  cases buffer with
  | nil => exact ⟨x, tl, 1, genNext_nil_parsed_cons fs p x tl f hfs⟩
  | cons j rest => exact ⟨j, rest, 0, genNext_cons fs p j rest (f + 1)⟩

/-! ## C4 -/

/-- C4: if the record-collection file does not exist at the startup check,
the process exits with code 1 ("missing data file"), with zero
`producer.send` calls and no `producer.close` call, before any publish
attempt. -/
theorem c4_missing_file_exit1_no_sends (fs : String → ReadOutcome)
    (producerOk topicOk : Bool) (events : Nat → LoopEvent)
    (clock : Nat → Rat) (genFuel fuel : Nat) :
    mainModel false fs producerOk topicOk events clock genFuel fuel =
        .exited 1 stats0 0 ∧
    (mainModel false fs producerOk topicOk events clock genFuel
        fuel).stats.sendCalls = 0 := by
  exact ⟨rfl, rfl⟩

/-! ## C6 -/

/-- C6 counterexample: the claim says the four fatal failure modes of the
record source map to pairwise-distinct exit codes, but a non-sequence root
(here `{}`) and an unexpected error both exit with code 3. -/
theorem c6_counterexample :
    (genNext (fun _ => ReadOutcome.parsed (Json.obj [])) DATA_FILE [] 1).code =
      (genNext (fun _ => ReadOutcome.otherErr "boom") DATA_FILE [] 1).code ∧
    (genNext (fun _ => ReadOutcome.parsed (Json.obj [])) DATA_FILE [] 1).code =
      some 3 := ⟨rfl, rfl⟩

/-- C6 amended: the record source's fatal failure modes map to exit codes
`file missing → 1`, `content not parseable → 2`, `root not a sequence → 3`,
`any other unexpected failure → 3`: the first three conditions are
pairwise distinct, but a non-sequence root shares code 3 with the
unexpected-failure mode (its `ValueError` is caught by the generic
`except Exception` handler). -/
theorem c6_exit_code_map (p e : String) (f : Nat)
    (fs₁ fs₂ fs₃ fs₄ : String → ReadOutcome) (j : Json)
    (h₁ : fs₁ DATA_FILE = .missing) (h₂ : fs₂ DATA_FILE = .decodeErr e)
    (h₃ : fs₃ DATA_FILE = .parsed j) (hj : j.isArr = false)
    (h₄ : fs₄ DATA_FILE = .otherErr e) :
    (genNext fs₁ p [] (f + 1)).code = some 1 ∧
    (genNext fs₂ p [] (f + 1)).code = some 2 ∧
    (genNext fs₃ p [] (f + 1)).code = some 3 ∧
    (genNext fs₄ p [] (f + 1)).code = some 3 := by
  refine ⟨?_, ?_, ?_, ?_⟩
  · simp [genNext, h₁, GenStep.code]
  · simp [genNext, h₂, GenStep.code]
  · cases j <;> simp_all [genNext, GenStep.code, Json.isArr]
  · simp [genNext, h₄, GenStep.code]

theorem c6_witness :
    (genNext (fun _ => ReadOutcome.missing) DATA_FILE [] 1).code = some 1 ∧
    (genNext (fun _ => ReadOutcome.decodeErr "e") DATA_FILE [] 1).code = some 2 ∧
    (genNext (fun _ => ReadOutcome.parsed (Json.obj [])) DATA_FILE [] 1).code =
      some 3 ∧
    (genNext (fun _ => ReadOutcome.otherErr "e") DATA_FILE [] 1).code = some 3 :=
  c6_exit_code_map DATA_FILE "e" 0 _ _ _ _ (Json.obj []) rfl rfl rfl rfl rfl

/-! ## C7 -/

/-- C7 counterexample: the claim says the resolved inter-message interval
is non-negative for every environment, but `BUZZ_INTERVAL_SECONDS="-5"`
resolves to `-5`. -/
theorem c7_counterexample :
    get_message_interval (some "-5") = some (-5) ∧ ¬ (0 ≤ (-5 : Int)) :=
  ⟨rfl, by decide⟩

/-- C7 amended: configuration resolution returns topic `"unknown_topic"`
when the topic variable is unset and interval `1` when the interval
variable is unset; when the interval variable is set, the resolved
interval is whatever integer the string parses to — not necessarily
non-negative (a negative numeral is returned as-is). -/
theorem c7_defaults_and_sign :
    get_kafka_topic none = "unknown_topic" ∧
    get_message_interval none = some 1 ∧
    get_message_interval (some "7") = some 7 ∧
    get_message_interval (some "-5") = some (-5) :=
  ⟨rfl, rfl, rfl, rfl⟩

/-! ## C8 -/

/-- C8: the value serializer passed to the broker-client factory on line 59
produces, for every record, exactly the UTF-8 encoding of the record's
JSON structured-text representation. -/
theorem c8_serializer_utf8_json :
    ∀ x : Json, value_serializer x = specRecordBytes x :=
  fun _ => rfl

/-! ## C1 -/

/-- C1 counterexample: for a source file whose decoded root is a JSON
object (not a sequence), the process exits with code 3, not with the
"malformed content" code 2 claimed (the generator's `ValueError` is not a
`json.JSONDecodeError`, so the `except Exception` handler exits 3). -/
theorem c1_counterexample :
    (mainModel true (fun _ => ReadOutcome.parsed (Json.obj [])) true true
        (fun _ => LoopEvent.ok) (fun _ => 0) 1 1).exitCode = some 3 ∧
    (mainModel true (fun _ => ReadOutcome.parsed (Json.obj [])) true true
        (fun _ => LoopEvent.ok) (fun _ => 0) 1 1).exitCode ≠ some 2 := by
  refine ⟨rfl, ?_⟩
  intro h
  exact absurd (Option.some.inj h) (by decide)

/-- C1 amended: for every source file whose decoded JSON root is not a
sequence, the record generator yields zero records and the process
terminates with exit code 3 (the "unexpected failure" code, since the
shape `ValueError` is caught by the generic `except Exception` clause),
not code 2; the broker client is still closed by the `finally` block. -/
theorem c1_nonlist_exit3 (fs : String → ReadOutcome) (p : String) (j : Json)
    (hfs : fs DATA_FILE = .parsed j) (hj : j.isArr = false) :
    (∀ f : Nat, (genNext fs p [] (f + 1)).code = some 3 ∧
      (genNext fs p [] (f + 1)).yielded = none) ∧
    (∀ (events : Nat → LoopEvent) (clock : Nat → Rat) (genFuel fuel : Nat),
      mainModel true fs true true events clock (genFuel + 1) (fuel + 1) =
        .exited 3 ⟨0, [], 0, [], 1⟩ 1) := by
  have hstep : ∀ f : Nat, ∃ m, genNext fs p [] (f + 1) = .exit 3 m 1 := by
    intro f
    cases j <;> simp_all [genNext, Json.isArr]
  constructor
  · intro f
    obtain ⟨m, hm⟩ := hstep f
    rw [hm]
    exact ⟨rfl, rfl⟩
  · intro events clock genFuel fuel
    obtain ⟨m, hm⟩ := hstep genFuel
    have hstep' : ∀ f : Nat, ∃ m, genNext fs DATA_FILE [] (f + 1) = .exit 3 m 1 := by
      intro f
      cases j <;> simp_all [genNext, Json.isArr]
    obtain ⟨m', hm'⟩ := hstep' genFuel
    simp [mainModel, mainLoop, hm', stats0, RunStats.addReads]

theorem c1_witness :
    (genNext (fun _ => ReadOutcome.parsed (Json.obj [])) DATA_FILE [] 1).code =
      some 3 ∧
    mainModel true (fun _ => ReadOutcome.parsed (Json.obj [])) true true
        (fun _ => LoopEvent.ok) (fun _ => 0) 1 1 =
      .exited 3 ⟨0, [], 0, [], 1⟩ 1 := by
  have h := c1_nonlist_exit3 (fun _ => ReadOutcome.parsed (Json.obj []))
    DATA_FILE (Json.obj []) rfl rfl
  exact ⟨(h.1 0).1, h.2 (fun _ => LoopEvent.ok) (fun _ => 0) 0 0⟩

/-! ## C10 -/

/-- C10: for a source file whose decoded root is the empty sequence, the
generator yields no records and never terminates — every unit of fuel is
spent re-opening and re-decoding the file (`spin f` after `f` re-reads) —
so the driver's main loop performs zero publish calls and, for every
iteration budget, neither exits nor closes the producer. -/
theorem c10_empty_list_spins (fs : String → ReadOutcome) (p : String)
    (hfs : fs DATA_FILE = .parsed (.arr [])) :
    (∀ f : Nat, genNext fs p [] f = .spin f) ∧
    (∀ (events : Nat → LoopEvent) (clock : Nat → Rat) (genFuel fuel : Nat),
      (mainModel true fs true true events clock genFuel fuel).exitCode = none ∧
      (mainModel true fs true true events clock genFuel fuel).stats.sendCalls
        = 0 ∧
      (mainModel true fs true true events clock genFuel fuel).stats.sent = []) := by
  have hspin : ∀ (q : String) (f : Nat), genNext fs q [] f = .spin f := by
    intro q f
    induction f with
    | zero => rfl
    | succ f ih => simp [genNext, hfs, ih, GenStep.bumpReads]
  refine ⟨hspin p, ?_⟩
  intro events clock genFuel fuel
  cases fuel with
  | zero => exact ⟨rfl, rfl, rfl⟩
  | succ fuel =>
    simp [mainModel, mainLoop, hspin DATA_FILE genFuel, MainOutcome.exitCode,
      MainOutcome.stats, RunStats.addReads, stats0]

theorem c10_witness :
    genNext (fun _ => ReadOutcome.parsed (Json.arr [])) DATA_FILE [] 2 =
      .spin 2 ∧
    (mainModel true (fun _ => ReadOutcome.parsed (Json.arr [])) true true
        (fun _ => LoopEvent.ok) (fun _ => 0) 1 1).exitCode = none ∧
    (mainModel true (fun _ => ReadOutcome.parsed (Json.arr [])) true true
        (fun _ => LoopEvent.ok) (fun _ => 0) 1 1).stats.sendCalls = 0 := by
  have h := c10_empty_list_spins (fun _ => ReadOutcome.parsed (Json.arr []))
    DATA_FILE rfl
  exact ⟨h.1 2, (h.2 (fun _ => LoopEvent.ok) (fun _ => 0) 1 1).1,
    (h.2 (fun _ => LoopEvent.ok) (fun _ => 0) 1 1).2.1⟩

/-! ## C9 -/

theorem GenStep.strip_bumpReads (r : Nat) (s : GenStep) :
    (s.bumpReads r).strip = s.strip.bumpReads r := by
  cases s <;> rfl

theorem GenStep.yielded_strip (s : GenStep) : s.strip.yielded = s.yielded := by
  cases s <;> rfl

theorem GenStep.code_strip (s : GenStep) : s.strip.code = s.code := by
  cases s <;> rfl

/-- Pulls of the generator depend on the filesystem only through the
content of `DATA_FILE`. -/
theorem genNext_ext (fs fs' : String → ReadOutcome) (p : String)
    (buffer : List Json) (fuel : Nat) (h : fs DATA_FILE = fs' DATA_FILE) :
    genNext fs p buffer fuel = genNext fs' p buffer fuel := by
  cases buffer with
  | cons j rest => rw [genNext_cons, genNext_cons]
  | nil =>
    induction fuel with
    | zero => rfl
    | succ f ih =>
      simp only [genNext, ← h]
      cases hread : fs DATA_FILE with
      | missing => rfl
      | decodeErr e => rfl
      | otherErr e => rfl
      | parsed j =>
        cases j with
        | arr xs =>
          cases xs with
          | nil => rw [ih]
          | cons x rest => rfl
        | null => rfl
        | bool b => rfl
        | num n => rfl
        | str s => rfl
        | obj kvs => rfl

/-- Up to the text of the logged message, a pull of the generator does not
depend on the `file_path` argument. -/
theorem genNext_strip_path (fs : String → ReadOutcome) (p q : String)
    (buffer : List Json) (fuel : Nat) :
    (genNext fs p buffer fuel).strip = (genNext fs q buffer fuel).strip := by
  cases buffer with
  | cons j rest => rw [genNext_cons, genNext_cons]
  | nil =>
    induction fuel with
    | zero => rfl
    | succ f ih =>
      simp only [genNext]
      cases hread : fs DATA_FILE with
      | missing => rfl
      | decodeErr e => rfl
      | otherErr e => rfl
      | parsed j =>
        cases j with
        | arr xs =>
          cases xs with
          | nil =>
            rw [GenStep.strip_bumpReads, GenStep.strip_bumpReads, ih]
          | cons x rest => rfl
        | null => rfl
        | bool b => rfl
        | num n => rfl
        | str s => rfl
        | obj kvs => rfl

/-- C9: the record generator ignores its `file_path` parameter when
reading: replacing the whole filesystem by the constant content of
`DATA_FILE` does not change any pull (only `DATA_FILE` is ever opened);
the yielded records and the exit codes are identical for any two path
arguments; and the file-missing and decode-error reports interpolate the
`file_path` argument into their messages. -/
theorem c9_file_path_ignored :
    (∀ (fs : String → ReadOutcome) (p : String) (buffer : List Json)
        (fuel : Nat),
      genNext fs p buffer fuel = genNext (fun _ => fs DATA_FILE) p buffer fuel) ∧
    (∀ (fs : String → ReadOutcome) (p q : String) (buffer : List Json)
        (fuel : Nat),
      (genNext fs p buffer fuel).yielded = (genNext fs q buffer fuel).yielded ∧
      (genNext fs p buffer fuel).code = (genNext fs q buffer fuel).code) ∧
    (∀ (fs : String → ReadOutcome) (p : String) (f : Nat),
      fs DATA_FILE = .missing →
      genNext fs p [] (f + 1) =
        .exit 1 ("File not found: " ++ p ++ ". Exiting.") 1) ∧
    (∀ (fs : String → ReadOutcome) (p e : String) (f : Nat),
      fs DATA_FILE = .decodeErr e →
      genNext fs p [] (f + 1) =
        .exit 2 ("Invalid JSON format in file: " ++ p ++ ". Error: " ++ e) 1) := by
  refine ⟨?_, ?_, ?_, ?_⟩
  · intro fs p buffer fuel
    exact genNext_ext fs (fun _ => fs DATA_FILE) p buffer fuel rfl
  · intro fs p q buffer fuel
    constructor
    · rw [← GenStep.yielded_strip, ← GenStep.yielded_strip (genNext fs q buffer fuel),
        genNext_strip_path fs p q buffer fuel]
    · rw [← GenStep.code_strip, ← GenStep.code_strip (genNext fs q buffer fuel),
        genNext_strip_path fs p q buffer fuel]
  · intro fs p f h
    simp [genNext, h]
  · intro fs p e f h
    simp [genNext, h]

theorem c9_witness :
    genNext (fun q => if q = DATA_FILE then ReadOutcome.missing
        else ReadOutcome.parsed (Json.arr [Json.null])) "other/path" [] 1 =
      .exit 1 ("File not found: " ++ "other/path" ++ ". Exiting.") 1 ∧
    (genNext (fun _ => ReadOutcome.parsed (Json.arr [Json.null])) "a" [] 1).yielded
      = (genNext (fun _ => ReadOutcome.parsed (Json.arr [Json.null])) "b" [] 1).yielded := by
  refine ⟨c9_file_path_ignored.2.2.1 _ "other/path" 0 (by simp), ?_⟩
  exact (c9_file_path_ignored.2.1 (fun _ => ReadOutcome.parsed
    (Json.arr [Json.null])) "a" "b" [] 1).1

/-! ## C2 -/

theorem genRun_zero (fs : String → ReadOutcome) (p : String)
    (buffer : List Json) (fuel : Nat) :
    genRun fs p buffer 0 fuel = .ok [] buffer 0 := rfl

/-- One pull that yields, followed by a successful trace, gives a
successful trace. -/
theorem genRun_yield_step (fs : String → ReadOutcome) (p : String)
    (buffer : List Json) (n fuel : Nat) (j : Json) (rest : List Json) (r : Nat)
    (ys rest' : List Json) (r' : Nat)
    (h : genNext fs p buffer fuel = .yield j rest r)
    (h2 : genRun fs p rest n fuel = .ok ys rest' r') :
    genRun fs p buffer (n + 1) fuel = .ok (j :: ys) rest' (r + r') := by
  simp only [genRun, h, h2]

/-- Invariant for a partially consumed cycle: starting from the buffer
`xs.drop r` (`1 ≤ r ≤ N` records of the current cycle already consumed),
`n + 1` further pulls with per-pull read budget `fuel ≥ 1` yield the
records at absolute positions `r, r+1, …` taken cyclically modulo `N`,
leave the buffer at the position after the last yield, and perform one
file re-read per cycle boundary crossed. -/
theorem genRun_inv (fs : String → ReadOutcome) (p : String) (x : Json)
    (tl : List Json)
    (hfs : fs DATA_FILE = .parsed (.arr (x :: tl))) :
    ∀ (n r fuel : Nat), 1 ≤ r → r ≤ (x :: tl).length → 1 ≤ fuel →
    genRun fs p ((x :: tl).drop r) (n + 1) fuel =
      .ok ((List.range (n + 1)).map
            (fun i => (x :: tl).getD ((r + i) % (x :: tl).length) Json.null))
        ((x :: tl).drop ((r + n) % (x :: tl).length + 1))
        ((r + n) / (x :: tl).length) := by
  intro n
  induction n with
  | zero =>
    intro r fuel hr1 hrN hf
    rcases Nat.lt_or_ge r (x :: tl).length with hlt | hge
    · have hstep : genNext fs p ((x :: tl).drop r) fuel =
          .yield ((x :: tl)[r]) ((x :: tl).drop (r + 1)) 0 := by
        rw [List.drop_eq_getElem_cons hlt, genNext_cons]
      rw [genRun_yield_step fs p _ 0 fuel _ _ _ _ _ _ hstep
        (genRun_zero fs p _ fuel)]
      have hmod : (r + 0) % (x :: tl).length = r := by
        rw [Nat.add_zero]
        exact Nat.mod_eq_of_lt hlt
      have hdiv : (r + 0) / (x :: tl).length = 0 := by
        rw [Nat.add_zero]
        exact Nat.div_eq_of_lt hlt
      congr 1
      · have hys : (List.range 1).map
            (fun i => (x :: tl).getD ((r + i) % (x :: tl).length) Json.null) =
            [(x :: tl).getD ((r + 0) % (x :: tl).length) Json.null] := rfl
        rw [hys, hmod, List.getD_eq_getElem (x :: tl) Json.null hlt]
      · rw [hmod]
      · rw [hdiv]
    · have hr : r = (x :: tl).length := le_antisymm hrN hge
      subst hr
      obtain ⟨f, rfl⟩ : ∃ f, fuel = f + 1 := ⟨fuel - 1, by omega⟩
      have hstep : genNext fs p ((x :: tl).drop (x :: tl).length) (f + 1) =
          .yield x tl 1 := by
        rw [List.drop_length]
        exact genNext_nil_parsed_cons fs p x tl f hfs
      have hN : 0 < (x :: tl).length := by simp
      rw [genRun_yield_step fs p _ 0 (f + 1) _ _ _ _ _ _ hstep
        (genRun_zero fs p _ (f + 1))]
      have hmod : ((x :: tl).length + 0) % (x :: tl).length = 0 := by
        rw [Nat.add_zero]
        exact Nat.mod_self _
      have hdiv : ((x :: tl).length + 0) / (x :: tl).length = 1 := by
        rw [Nat.add_zero]
        exact Nat.div_self hN
      congr 1
      · have hys : (List.range 1).map
            (fun i => (x :: tl).getD
              (((x :: tl).length + i) % (x :: tl).length) Json.null) =
            [(x :: tl).getD
              (((x :: tl).length + 0) % (x :: tl).length) Json.null] := rfl
        rw [hys, hmod]
        rfl
      · rw [hmod]
        rfl
      · rw [hdiv]
  | succ n ih =>
    intro r fuel hr1 hrN hf
    rcases Nat.lt_or_ge r (x :: tl).length with hlt | hge
    · have hstep : genNext fs p ((x :: tl).drop r) fuel =
          .yield ((x :: tl)[r]) ((x :: tl).drop (r + 1)) 0 := by
        rw [List.drop_eq_getElem_cons hlt, genNext_cons]
      rw [genRun_yield_step fs p _ (n + 1) fuel _ _ _ _ _ _ hstep
        (ih (r + 1) fuel (by omega) (by omega) hf)]
      congr 1
      · conv_rhs => rw [List.range_succ_eq_map, List.map_cons, List.map_map]
        have hmod : (r + 0) % (x :: tl).length = r := by
          rw [Nat.add_zero]
          exact Nat.mod_eq_of_lt hlt
        congr 1
        · rw [hmod, List.getD_eq_getElem (x :: tl) Json.null hlt]
        · apply List.map_congr_left
          intro i _
          simp only [Function.comp]
          have harg : r + Nat.succ i = r + 1 + i := by omega
          rw [harg]
      · have harg : r + (n + 1) = r + 1 + n := by omega
        rw [harg]
      · have harg : r + (n + 1) = r + 1 + n := by omega
        rw [Nat.zero_add, harg]
    · have hr : r = (x :: tl).length := le_antisymm hrN hge
      subst hr
      obtain ⟨f, rfl⟩ : ∃ f, fuel = f + 1 := ⟨fuel - 1, by omega⟩
      have hstep : genNext fs p ((x :: tl).drop (x :: tl).length) (f + 1) =
          .yield x tl 1 := by
        rw [List.drop_length]
        exact genNext_nil_parsed_cons fs p x tl f hfs
      have hN : 0 < (x :: tl).length := by simp
      have h2 : genRun fs p tl (n + 1) (f + 1) =
          .ok ((List.range (n + 1)).map
                (fun i => (x :: tl).getD ((1 + i) % (x :: tl).length) Json.null))
            ((x :: tl).drop ((1 + n) % (x :: tl).length + 1))
            ((1 + n) / (x :: tl).length) :=
        ih 1 (f + 1) (by omega) (by simp) (by omega)
      rw [genRun_yield_step fs p _ (n + 1) (f + 1) _ _ _ _ _ _ hstep h2]
      congr 1
      · conv_rhs => rw [List.range_succ_eq_map, List.map_cons, List.map_map]
        have hmod : ((x :: tl).length + 0) % (x :: tl).length = 0 := by
          rw [Nat.add_zero]
          exact Nat.mod_self _
        congr 1
        · rw [hmod]
          rfl
        · apply List.map_congr_left
          intro i _
          simp only [Function.comp]
          have harg : ((x :: tl).length + Nat.succ i) % (x :: tl).length =
              (1 + i) % (x :: tl).length := by
            rw [Nat.add_mod_left]
            congr 1
            omega
          rw [harg]
      · have harg : ((x :: tl).length + (n + 1)) % (x :: tl).length =
            (1 + n) % (x :: tl).length := by
          rw [Nat.add_mod_left]
          congr 1
          omega
        rw [harg]
      · have harg : ((x :: tl).length + (n + 1)) / (x :: tl).length =
            (1 + n) / (x :: tl).length + 1 := by
          rw [Nat.add_div_left _ hN]
          congr 2
          omega
        rw [harg, Nat.add_comm]

/-- C2: for every well-formed record collection of size `N ≥ 1`, `n + 1`
pulls of the record generator yield the records cyclically in original
file order (`i`-th yield is record `i mod N`), the file is re-read at the
start of every cycle (`1 + n / N` reads in total, one per started cycle),
and in particular the `(N+1)`-th yield is again the first record
(wraparound). -/
theorem c2_cycle_order_wraparound (fs : String → ReadOutcome) (p : String)
    (xs : List Json) (n fuel : Nat)
    (hfs : fs DATA_FILE = .parsed (.arr xs)) (hne : xs ≠ []) (hf : 1 ≤ fuel) :
    genRun fs p [] (n + 1) fuel =
      .ok ((List.range (n + 1)).map (fun i => xs.getD (i % xs.length) Json.null))
        (xs.drop (n % xs.length + 1))
        (1 + n / xs.length) := by
  obtain ⟨x, tl, rfl⟩ : ∃ x tl, xs = x :: tl := by
    cases xs with
    | nil => exact absurd rfl hne
    | cons a b => exact ⟨a, b, rfl⟩
  obtain ⟨f, rfl⟩ : ∃ f, fuel = f + 1 := ⟨fuel - 1, by omega⟩
  have hstep : genNext fs p [] (f + 1) = .yield x tl 1 :=
    genNext_nil_parsed_cons fs p x tl f hfs
  cases n with
  | zero =>
    rw [genRun_yield_step fs p _ 0 (f + 1) _ _ _ _ _ _ hstep
      (genRun_zero fs p _ (f + 1))]
    have h0 : (0 : Nat) / (x :: tl).length = 0 := Nat.zero_div _
    rw [h0]
    rfl
  | succ m =>
    have h2 := genRun_inv fs p x tl hfs m 1 (f + 1) (by omega) (by simp)
      (by omega)
    rw [genRun_yield_step fs p _ (m + 1) (f + 1) _ _ _ _ _ _ hstep h2]
    congr 1
    · conv_rhs => rw [List.range_succ_eq_map, List.map_cons, List.map_map]
      congr 1
      apply List.map_congr_left
      intro i _
      simp only [Function.comp]
      have harg : Nat.succ i % (x :: tl).length =
          (1 + i) % (x :: tl).length := by
        congr 1
        omega
      rw [harg]
    · have harg : (m + 1) % (x :: tl).length = (1 + m) % (x :: tl).length := by
        congr 1
        omega
      rw [harg]
    · have harg : (m + 1) / (x :: tl).length = (1 + m) / (x :: tl).length := by
        congr 1
        omega
      rw [harg]

theorem c2_witness :
    genRun (fun _ => ReadOutcome.parsed (Json.arr
        [Json.obj [("id", Json.num 1)], Json.obj [("id", Json.num 2)],
         Json.obj [("id", Json.num 3)]])) DATA_FILE [] 4 1 =
      .ok [Json.obj [("id", Json.num 1)], Json.obj [("id", Json.num 2)],
           Json.obj [("id", Json.num 3)], Json.obj [("id", Json.num 1)]]
        [Json.obj [("id", Json.num 2)], Json.obj [("id", Json.num 3)]]
        2 := by
  have h := c2_cycle_order_wraparound
    (fun _ => ReadOutcome.parsed (Json.arr
      [Json.obj [("id", Json.num 1)], Json.obj [("id", Json.num 2)],
       Json.obj [("id", Json.num 3)]])) DATA_FILE
    [Json.obj [("id", Json.num 1)], Json.obj [("id", Json.num 2)],
     Json.obj [("id", Json.num 3)]] 3 1 rfl (by simp) (by omega)
  exact h.trans (by rfl)

/-! ## Driver loop unfolding lemmas -/

theorem mainLoop_zero (fs : String → ReadOutcome) (p : String)
    (events : Nat → LoopEvent) (clock : Nat → Rat) (buffer : List Json)
    (st : RunStats) (genFuel : Nat) :
    mainLoop fs p events clock buffer st genFuel 0 = .running st := rfl

theorem mainLoop_spin_step (fs : String → ReadOutcome) (p : String)
    (events : Nat → LoopEvent) (clock : Nat → Rat) (buffer : List Json)
    (st : RunStats) (genFuel fuel r : Nat)
    (h : genNext fs p buffer genFuel = .spin r) :
    mainLoop fs p events clock buffer st genFuel (fuel + 1) =
      .running (st.addReads r) := by
  simp only [mainLoop, h]

theorem mainLoop_exit_step (fs : String → ReadOutcome) (p : String)
    (events : Nat → LoopEvent) (clock : Nat → Rat) (buffer : List Json)
    (st : RunStats) (genFuel fuel c r : Nat) (m : String)
    (h : genNext fs p buffer genFuel = .exit c m r) :
    mainLoop fs p events clock buffer st genFuel (fuel + 1) =
      .exited c (st.addReads r) 1 := by
  simp only [mainLoop, h]

theorem mainLoop_yield_interrupt (fs : String → ReadOutcome) (p : String)
    (events : Nat → LoopEvent) (clock : Nat → Rat) (buffer : List Json)
    (st : RunStats) (genFuel fuel r : Nat) (j : Json) (rest : List Json)
    (h : genNext fs p buffer genFuel = .yield j rest r)
    (hev : events st.count = .interrupt) :
    mainLoop fs p events clock buffer st genFuel (fuel + 1) =
      .exited 0 (st.addReads r) 1 := by
  simp only [mainLoop, h, RunStats.addReads, hev]

theorem mainLoop_yield_exc (fs : String → ReadOutcome) (p : String)
    (events : Nat → LoopEvent) (clock : Nat → Rat) (buffer : List Json)
    (st : RunStats) (genFuel fuel r : Nat) (j : Json) (rest : List Json)
    (h : genNext fs p buffer genFuel = .yield j rest r)
    (hev : events st.count = .raiseExc) :
    mainLoop fs p events clock buffer st genFuel (fuel + 1) =
      .exited 0 { st.addReads r with
        sendCalls := (st.addReads r).sendCalls + 1 } 1 := by
  simp only [mainLoop, h, RunStats.addReads, hev]

theorem mainLoop_yield_ok (fs : String → ReadOutcome) (p : String)
    (events : Nat → LoopEvent) (clock : Nat → Rat) (buffer : List Json)
    (st : RunStats) (genFuel fuel r : Nat) (j : Json) (rest : List Json)
    (h : genNext fs p buffer genFuel = .yield j rest r)
    (hev : events st.count = .ok) :
    mainLoop fs p events clock buffer st genFuel (fuel + 1) =
      mainLoop fs p events clock rest
        { sendCalls := st.sendCalls + 1
          sent := st.sent ++ [j]
          count := st.count + 1
          snaps := if (st.count + 1) % 10 = 0 then
              st.snaps ++ [mkSnap clock (st.count + 1)]
            else st.snaps
          reads := st.reads + r }
        genFuel fuel := by
  simp only [mainLoop, h, RunStats.addReads, hev]

/-! ## C3 -/

/-- On every path on which the streaming loop terminates the process,
`producer.close` has been called exactly once (the `finally` block runs on
normal, interrupted, errored and `SystemExit` paths alike, and the loop
never continues after it). -/
theorem mainLoop_close_once :
    ∀ (fuel : Nat) (fs : String → ReadOutcome) (p : String)
      (events : Nat → LoopEvent) (clock : Nat → Rat) (buffer : List Json)
      (st : RunStats) (genFuel c : Nat) (st' : RunStats) (k : Nat),
      mainLoop fs p events clock buffer st genFuel fuel = .exited c st' k →
      k = 1 := by
  intro fuel
  induction fuel with
  | zero =>
    intro fs p events clock buffer st genFuel c st' k h
    rw [mainLoop_zero] at h
    exact MainOutcome.noConfusion h
  | succ fuel ih =>
    intro fs p events clock buffer st genFuel c st' k h
    cases hg : genNext fs p buffer genFuel with
    | spin r =>
      rw [mainLoop_spin_step fs p events clock buffer st genFuel fuel r hg] at h
      exact MainOutcome.noConfusion h
    | exit c2 m r =>
      rw [mainLoop_exit_step fs p events clock buffer st genFuel fuel c2 r m hg] at h
      injection h with h1 h2 h3
      exact h3.symm
    | yield j rest r =>
      cases hev : events st.count with
      | interrupt =>
        rw [mainLoop_yield_interrupt fs p events clock buffer st genFuel fuel r
          j rest hg hev] at h
        injection h with h1 h2 h3
        exact h3.symm
      | raiseExc =>
        rw [mainLoop_yield_exc fs p events clock buffer st genFuel fuel r
          j rest hg hev] at h
        injection h with h1 h2 h3
        exact h3.symm
      | ok =>
        rw [mainLoop_yield_ok fs p events clock buffer st genFuel fuel r
          j rest hg hev] at h
        exact ih fs p events clock rest _ genFuel c st' k h

/-- With a well-formed nonempty collection, if the first `k` iterations
succeed and iteration `k` is hit by a `KeyboardInterrupt` or an exception
from the publish step, the loop stops with exit code 0 after exactly one
`producer.close`. -/
theorem mainLoop_event_stops (fs : String → ReadOutcome) (p : String)
    (x : Json) (tl : List Json) (events : Nat → LoopEvent)
    (clock : Nat → Rat) (hfs : fs DATA_FILE = .parsed (.arr (x :: tl))) :
    ∀ (k : Nat) (buffer : List Json) (st : RunStats) (genFuel fuel : Nat),
      (∀ i, i < k → events (st.count + i) = .ok) →
      events (st.count + k) ≠ .ok → k < fuel →
      ∃ st', mainLoop fs p events clock buffer st (genFuel + 1) fuel =
        .exited 0 st' 1 := by
  intro k
  induction k with
  | zero =>
    intro buffer st genFuel fuel hpre hk hlt
    obtain ⟨f, rfl⟩ : ∃ f, fuel = f + 1 := ⟨fuel - 1, by omega⟩
    obtain ⟨j, rest, r, hg⟩ := genNext_always_yields fs p x tl hfs buffer genFuel
    cases hev : events st.count with
    | ok => exact absurd hev hk
    | interrupt =>
      exact ⟨st.addReads r, mainLoop_yield_interrupt fs p events clock buffer
        st (genFuel + 1) f r j rest hg hev⟩
    | raiseExc =>
      exact ⟨_, mainLoop_yield_exc fs p events clock buffer st (genFuel + 1)
        f r j rest hg hev⟩
  | succ k ih =>
    intro buffer st genFuel fuel hpre hk hlt
    obtain ⟨f, rfl⟩ : ∃ f, fuel = f + 1 := ⟨fuel - 1, by omega⟩
    obtain ⟨j, rest, r, hg⟩ := genNext_always_yields fs p x tl hfs buffer genFuel
    have hev : events st.count = .ok := by
      have h0 := hpre 0 (by omega)
      simpa using h0
    rw [mainLoop_yield_ok fs p events clock buffer st (genFuel + 1) f r
      j rest hg hev]
    apply ih
    · intro i hi
      show events (st.count + 1 + i) = .ok
      have harg : st.count + 1 + i = st.count + (i + 1) := by omega
      rw [harg]
      exact hpre (i + 1) (by omega)
    · show events (st.count + 1 + k) ≠ .ok
      have harg : st.count + 1 + k = st.count + (k + 1) := by omega
      rw [harg]
      exact hk
    · omega

/-- C3 counterexample: a run that reaches the streaming loop over an
existing but malformed data file has the generator's `SystemExit(2)`
raised from within the publish loop on the first pull; the loop stops and
`producer.close` runs exactly once, but the process exits with code 2,
not 0 as claimed. -/
theorem c3_counterexample :
    (mainModel true (fun _ => ReadOutcome.decodeErr "bad") true true
        (fun _ => LoopEvent.ok) (fun _ => 0) 1 1).exitCode = some 2 ∧
    (mainModel true (fun _ => ReadOutcome.decodeErr "bad") true true
        (fun _ => LoopEvent.ok) (fun _ => 0) 1 1).exitCode ≠ some 0 ∧
    (mainModel true (fun _ => ReadOutcome.decodeErr "bad") true true
        (fun _ => LoopEvent.ok) (fun _ => 0) 1 1).closes = some 1 := by
  refine ⟨rfl, ?_, rfl⟩
  intro h
  exact absurd (Option.some.inj h) (by decide)

/-- C3 amended: whenever the streaming loop terminates the process,
`producer.close` has been invoked exactly once — never zero, never more
than once, on every exit path; and when the cause is an interruption
signal or an exception raised from within the publish step (rather than a
`SystemExit` from the generator's own fatal-error handling, which
re-uses the generator's exit code), the process exits gracefully with
code 0. -/
theorem c3_close_once_and_inloop_exit0 :
    (∀ (fs : String → ReadOutcome) (events : Nat → LoopEvent)
        (clock : Nat → Rat) (genFuel fuel c : Nat) (st' : RunStats) (k : Nat),
      mainModel true fs true true events clock genFuel fuel =
        .exited c st' k → k = 1) ∧
    (∀ (fs : String → ReadOutcome) (x : Json) (tl : List Json)
        (events : Nat → LoopEvent) (clock : Nat → Rat) (genFuel fuel m : Nat),
      fs DATA_FILE = .parsed (.arr (x :: tl)) →
      (∀ i, i < m → events i = .ok) → events m ≠ .ok → m < fuel →
      (mainModel true fs true true events clock (genFuel + 1) fuel).exitCode =
          some 0 ∧
      (mainModel true fs true true events clock (genFuel + 1) fuel).closes =
          some 1) := by
  constructor
  · intro fs events clock genFuel fuel c st' k h
    have hred : mainModel true fs true true events clock genFuel fuel =
        mainLoop fs DATA_FILE events clock [] stats0 genFuel fuel := rfl
    rw [hred] at h
    exact mainLoop_close_once fuel fs DATA_FILE events clock [] stats0
      genFuel c st' k h
  · intro fs x tl events clock genFuel fuel m hfs hpre hm hlt
    have hred : mainModel true fs true true events clock (genFuel + 1) fuel =
        mainLoop fs DATA_FILE events clock [] stats0 (genFuel + 1) fuel := rfl
    obtain ⟨st', hrun⟩ := mainLoop_event_stops fs DATA_FILE x tl events clock
      hfs m [] stats0 genFuel fuel
      (by
        intro i hi
        show events (stats0.count + i) = .ok
        have harg : stats0.count + i = i := by
          show 0 + i = i
          omega
        rw [harg]
        exact hpre i hi)
      (by
        show events (stats0.count + m) ≠ .ok
        have harg : stats0.count + m = m := by
          show 0 + m = m
          omega
        rw [harg]
        exact hm)
      hlt
    rw [hred, hrun]
    exact ⟨rfl, rfl⟩

theorem c3_witness :
    (mainModel true (fun _ => ReadOutcome.parsed (Json.arr [Json.null])) true
        true (fun i => if i < 2 then LoopEvent.ok else LoopEvent.interrupt)
        (fun _ => 0) 1 5).exitCode = some 0 ∧
    (mainModel true (fun _ => ReadOutcome.parsed (Json.arr [Json.null])) true
        true (fun i => if i < 2 then LoopEvent.ok else LoopEvent.interrupt)
        (fun _ => 0) 1 5).closes = some 1 :=
  c3_close_once_and_inloop_exit0.2
    (fun _ => ReadOutcome.parsed (Json.arr [Json.null])) Json.null []
    (fun i => if i < 2 then LoopEvent.ok else LoopEvent.interrupt)
    (fun _ => 0) 0 5 2 rfl
    (by
      intro i hi
      simp [hi])
    (by simp)
    (by omega)

/-! ## C5 -/

theorem snapList_zero (clock : Nat → Rat) (m : Nat) :
    snapList clock m 0 = [] := rfl

theorem snapList_succ (clock : Nat → Rat) (m f : Nat) :
    snapList clock m (f + 1) =
      (if (m + 1) % 10 = 0 then [mkSnap clock (m + 1)] else []) ++
        snapList clock (m + 1) f := by
  have hfun : ((fun i => if (m + i + 1) % 10 = 0 then
        some (mkSnap clock (m + i + 1)) else none) ∘ Nat.succ) =
      (fun i => if (m + 1 + i + 1) % 10 = 0 then
        some (mkSnap clock (m + 1 + i + 1)) else none) := by
    funext i
    simp only [Function.comp]
    have harg : m + Nat.succ i + 1 = m + 1 + i + 1 := by omega
    rw [harg]
  simp only [snapList, List.range_succ_eq_map, List.filterMap_cons,
    List.filterMap_map, hfun]
  by_cases h10 : (m + 1) % 10 = 0
  · have h0 : (m + 0 + 1) % 10 = 0 := by omega
    rw [if_pos h0, if_pos h10]
    have harg : m + 0 + 1 = m + 1 := by omega
    rw [harg]
    rfl
  · have h0 : ¬ (m + 0 + 1) % 10 = 0 := by omega
    rw [if_neg h0, if_neg h10]
    rfl

theorem mem_snapList (clock : Nat → Rat) (m f : Nat) (s : Nat × Rat × Rat) :
    s ∈ snapList clock m f ↔
      ∃ c, m < c ∧ c ≤ m + f ∧ c % 10 = 0 ∧ s = mkSnap clock c := by
  simp only [snapList, List.mem_filterMap, List.mem_range]
  constructor
  · rintro ⟨i, hi, hsome⟩
    by_cases h10 : (m + i + 1) % 10 = 0
    · rw [if_pos h10] at hsome
      exact ⟨m + i + 1, by omega, by omega, h10, (Option.some.inj hsome).symm⟩
    · rw [if_neg h10] at hsome
      exact absurd hsome (by simp)
  · rintro ⟨c, hc1, hc2, hc10, rfl⟩
    refine ⟨c - m - 1, by omega, ?_⟩
    have harg : m + (c - m - 1) + 1 = c := by omega
    rw [harg, if_pos hc10]

/-- Invariant of the all-successful streaming loop over a well-formed
nonempty collection: after `fuel` iterations the loop is still running,
the message count has grown by `fuel`, one send per iteration was made,
and exactly the throughput snapshots at the counts divisible by 10 were
appended. -/
theorem mainLoop_ok_inv (fs : String → ReadOutcome) (p : String) (x : Json)
    (tl : List Json) (events : Nat → LoopEvent) (clock : Nat → Rat)
    (hfs : fs DATA_FILE = .parsed (.arr (x :: tl)))
    (hev : ∀ i, events i = .ok) :
    ∀ (fuel : Nat) (buffer : List Json) (st : RunStats) (genFuel : Nat),
      ∃ st', mainLoop fs p events clock buffer st (genFuel + 1) fuel =
          .running st' ∧
        st'.count = st.count + fuel ∧
        st'.snaps = st.snaps ++ snapList clock st.count fuel ∧
        st'.sendCalls = st.sendCalls + fuel := by
  intro fuel
  induction fuel with
  | zero =>
    intro buffer st genFuel
    exact ⟨st, rfl, by omega, by simp [snapList_zero], by omega⟩
  | succ fuel ih =>
    intro buffer st genFuel
    obtain ⟨j, rest, r, hg⟩ := genNext_always_yields fs p x tl hfs buffer genFuel
    rw [mainLoop_yield_ok fs p events clock buffer st (genFuel + 1) fuel r
      j rest hg (hev st.count)]
    obtain ⟨st', hrun, hcount, hsnaps, hsend⟩ := ih rest
      { sendCalls := st.sendCalls + 1
        sent := st.sent ++ [j]
        count := st.count + 1
        snaps := if (st.count + 1) % 10 = 0 then
            st.snaps ++ [mkSnap clock (st.count + 1)]
          else st.snaps
        reads := st.reads + r }
      genFuel
    refine ⟨st', hrun, ?_, ?_, ?_⟩
    · have hcount2 : st'.count = st.count + 1 + fuel := hcount
      omega
    · have hsnaps2 : st'.snaps =
          (if (st.count + 1) % 10 = 0 then
              st.snaps ++ [mkSnap clock (st.count + 1)]
            else st.snaps) ++ snapList clock (st.count + 1) fuel := hsnaps
      rw [hsnaps2, snapList_succ]
      by_cases h10 : (st.count + 1) % 10 = 0
      · rw [if_pos h10, if_pos h10, List.append_assoc]
      · rw [if_neg h10, if_neg h10, List.nil_append]
    · have hsend2 : st'.sendCalls = st.sendCalls + 1 + fuel := hsend
      omega

/-- C5: over a well-formed nonempty collection and an all-successful
publish loop, after `n` iterations the loop is still running, the message
count is `n`, and a throughput snapshot exists exactly for each count that
is a positive multiple of 10 (and at most `n`): each recorded snapshot
carries `elapsed = msg_end_time - start_time` and
`throughput = count / elapsed`, and no snapshot exists at any other
count. -/
theorem c5_throughput_snapshots (fs : String → ReadOutcome) (x : Json)
    (tl : List Json) (events : Nat → LoopEvent) (clock : Nat → Rat)
    (genFuel n : Nat)
    (hfs : fs DATA_FILE = .parsed (.arr (x :: tl)))
    (hev : ∀ i, events i = .ok) :
    (mainModel true fs true true events clock (genFuel + 1) n).exitCode =
        none ∧
    (mainModel true fs true true events clock (genFuel + 1) n).stats.count =
        n ∧
    (∀ s ∈ (mainModel true fs true true events clock (genFuel + 1)
        n).stats.snaps,
      0 < s.1 ∧ s.1 % 10 = 0 ∧ s.1 ≤ n ∧ s = mkSnap clock s.1) ∧
    (∀ c : Nat, 0 < c → c % 10 = 0 → c ≤ n →
      mkSnap clock c ∈ (mainModel true fs true true events clock (genFuel + 1)
        n).stats.snaps) := by
  have hred : mainModel true fs true true events clock (genFuel + 1) n =
      mainLoop fs DATA_FILE events clock [] stats0 (genFuel + 1) n := rfl
  obtain ⟨st', hrun, hcount, hsnaps, hsend⟩ := mainLoop_ok_inv fs DATA_FILE
    x tl events clock hfs hev n [] stats0 genFuel
  have hc0 : stats0.count = 0 := rfl
  have hs0 : stats0.snaps = [] := rfl
  rw [hc0] at hcount hsnaps
  rw [hs0, List.nil_append] at hsnaps
  refine ⟨?_, ?_, ?_, ?_⟩
  · rw [hred, hrun]
    rfl
  · rw [hred, hrun]
    show st'.count = n
    omega
  · intro s hs
    rw [hred, hrun] at hs
    have hs' : s ∈ snapList clock 0 n := by
      rw [← hsnaps]
      exact hs
    obtain ⟨c, hcm, hcn, hc10, rfl⟩ := (mem_snapList clock 0 n s).mp hs'
    have hfst : (mkSnap clock c).1 = c := rfl
    refine ⟨?_, ?_, ?_, ?_⟩
    · rw [hfst]
      omega
    · rw [hfst]
      exact hc10
    · rw [hfst]
      omega
    · rw [hfst]
  · intro c hc0' hc10 hcn
    rw [hred, hrun]
    show mkSnap clock c ∈ st'.snaps
    rw [hsnaps]
    exact (mem_snapList clock 0 n (mkSnap clock c)).mpr
      ⟨c, by omega, by omega, hc10, rfl⟩

theorem c5_witness :
    (mainModel true (fun _ => ReadOutcome.parsed (Json.arr [Json.null])) true
        true (fun _ => LoopEvent.ok) (fun i => (i : Rat)) 1 25).stats.count =
      25 ∧
    mkSnap (fun i => (i : Rat)) 10 ∈
      (mainModel true (fun _ => ReadOutcome.parsed (Json.arr [Json.null]))
        true true (fun _ => LoopEvent.ok) (fun i => (i : Rat)) 1 25).stats.snaps ∧
    mkSnap (fun i => (i : Rat)) 20 ∈
      (mainModel true (fun _ => ReadOutcome.parsed (Json.arr [Json.null]))
        true true (fun _ => LoopEvent.ok) (fun i => (i : Rat)) 1 25).stats.snaps := by
  have h := c5_throughput_snapshots
    (fun _ => ReadOutcome.parsed (Json.arr [Json.null])) Json.null []
    (fun _ => LoopEvent.ok) (fun i => (i : Rat)) 0 25 rfl (fun _ => rfl)
  exact ⟨h.2.1, h.2.2.2 10 (by omega) (by omega) (by omega),
    h.2.2.2 20 (by omega) (by omega) (by omega)⟩
